import Mathlib

/-!
Verification of the VideoToAscii frame-processing pipeline (src/main.rs).

The Rust source is shallowly embedded: machine integers (u8, u16, u32,
usize) are modelled as Nat; `u8::saturating_sub` is Nat subtraction, which
is saturating by definition; u32 arithmetic in the distance computation
never exceeds 3 * 255^2 = 195075, far below 2^32, so no wraparound is
modelled.  Floating-point expressions in main (frame delay, autosize) are
modelled over the rationals; the two concrete expressions involved
(`width as f64 / 4.0` for a u16 width, and `1.0 / fps * 1000.0`) are noted
at their definitions.
-/

/-- Rust struct Color { r: u8, b: u8, g: u8 } (field order as in the source).
Channels are modelled as Nat; validity (fitting in u8) is the predicate
Color.valid below. -/
structure Color where
  r : Nat
  b : Nat
  g : Nat
deriving DecidableEq, Repr

/-- A color whose channels all fit in a u8, as every color produced by the
decoder does. -/
def Color.valid (c : Color) : Prop :=
  c.r ≤ 255 ∧ c.g ≤ 255 ∧ c.b ≤ 255

instance (c : Color) : Decidable c.valid := by
  unfold Color.valid; infer_instance

/-- Rust struct Shade { symbol: &'static str, color: Color }. -/
structure Shade where
  symbol : String
  color : Color
deriving DecidableEq, Repr

/-- The squared channel-wise distance computed inside color_to_character:
(color.r.saturating_sub(shade.color.r) as u32).pow(2) + ... for g and b.
Nat subtraction is exactly u8 saturating subtraction for channels ≤ 255. -/
def shade_distance (c : Color) (s : Shade) : Nat :=
  (c.r - s.color.r) ^ 2 + (c.g - s.color.g) ^ 2 + (c.b - s.color.b) ^ 2

/-- Spec-side description of one channel contribution: a channel where the
shade value is at least the pixel value contributes 0, otherwise the
squared (ordinary) difference. -/
def clampedSq (p s : Nat) : Nat :=
  if p ≤ s then 0 else (p - s) ^ 2

/-- The fixed palette built inside color_to_character (the five live
Shade entries of the vector; the commented-out alternatives are dead). -/
def shades : List Shade :=
  [ { symbol := "█", color := { r := 0, g := 0, b := 0 } },
    { symbol := "▓", color := { r := 51, g := 51, b := 51 } },
    { symbol := "▒", color := { r := 153, g := 153, b := 153 } },
    { symbol := "░", color := { r := 204, g := 204, b := 204 } },
    { symbol := " ", color := { r := 255, g := 255, b := 255 } } ]

/-- The `while i < shades.len()` loop of color_to_character: carries the
current best distance and the current character, updating both only on a
strictly smaller distance. -/
def closest_loop (ss : List Shade) (c : Color) (best : Nat) (ch : String) :
    Nat × String :=
  match ss with
  | [] => (best, ch)
  | s :: rest =>
    let d := shade_distance c s
    if d < best then closest_loop rest c d s.symbol
    else closest_loop rest c best ch

/-- color_to_character with the palette as a parameter (the loop body is
independent of the concrete vector); initial best distance is the source's
sentinel 195075 and the initial character is the empty String::new(). -/
def color_to_character_with (ss : List Shade) (c : Color) : String :=
  (closest_loop ss c 195075 "").2

/-- fn color_to_character(color: Color) -> Result<String, opencv::Error>:
always returns Ok, so the embedding returns the String directly. -/
def color_to_character (c : Color) : String :=
  color_to_character_with shades c

/-- The `while i < frames.len()` loop of skip_frames, with the running
index carried explicitly: pushes frames[i] exactly when i % skip_every != 0. -/
def skip_loop (frames : List α) (skipEvery i : Nat) : List α :=
  match frames with
  | [] => []
  | f :: rest =>
    if i % skipEvery != 0 then f :: skip_loop rest skipEvery (i + 1)
    else skip_loop rest skipEvery (i + 1)

/-- fn skip_frames(frames: &Vec<Mat>, skip_every: usize): returns the input
unchanged when skip_every == 0, otherwise runs the index loop from 0. -/
def skip_frames (frames : List α) (skipEvery : Nat) : List α :=
  if skipEvery = 0 then frames else skip_loop frames skipEvery 0

-- Helper lemmas about the quantizer loop --------------------------------

theorem closest_loop_fst_le (ss : List Shade) (c : Color) (best : Nat)
    (ch : String) : (closest_loop ss c best ch).1 ≤ best := by
  induction ss generalizing best ch with
  | nil => simp [closest_loop]
  | cons s rest ih =>
    simp only [closest_loop]
    by_cases h : shade_distance c s < best
    · simp only [h, if_pos]
      exact le_trans (ih _ _) (le_of_lt h)
    · simpa [h] using ih best ch

theorem closest_loop_fst_le_mem (ss : List Shade) (c : Color) (best : Nat)
    (ch : String) (s : Shade) (hs : s ∈ ss) :
    (closest_loop ss c best ch).1 ≤ shade_distance c s := by
  induction ss generalizing best ch with
  | nil => cases hs
  | cons t rest ih =>
    simp only [closest_loop]
    rcases List.mem_cons.mp hs with h | h
    · subst h
      by_cases hd : shade_distance c s < best
      · simpa [hd] using closest_loop_fst_le rest c _ _
      · push_neg at hd
        simpa [not_lt.mpr hd] using
          le_trans (closest_loop_fst_le rest c best ch) hd
    · by_cases hd : shade_distance c t < best
      · simpa [hd] using ih _ _ h
      · simpa [hd] using ih _ _ h

theorem closest_loop_no_update (ss : List Shade) (c : Color) (best : Nat)
    (ch : String) (h : ∀ s ∈ ss, best ≤ shade_distance c s) :
    closest_loop ss c best ch = (best, ch) := by
  induction ss with
  | nil => rfl
  | cons s rest ih =>
    have hs : best ≤ shade_distance c s := h s (List.mem_cons_self s rest)
    simp only [closest_loop, not_lt.mpr hs, if_neg (not_lt.mpr hs)]
    exact ih fun t ht => h t (List.mem_cons_of_mem s ht)

theorem closest_loop_mem (ss : List Shade) (c : Color) (best : Nat)
    (ch : String) (h : ∃ s ∈ ss, shade_distance c s < best) :
    ∃ s ∈ ss, (closest_loop ss c best ch).2 = s.symbol := by
  induction ss generalizing best ch with
  | nil => simp at h
  | cons s rest ih =>
    by_cases hd : shade_distance c s < best
    · simp only [closest_loop, if_pos hd]
      by_cases hrest : ∃ t ∈ rest, shade_distance c t < shade_distance c s
      · obtain ⟨t, ht, htt⟩ := ih _ s.symbol hrest
        exact ⟨t, List.mem_cons_of_mem s ht, htt⟩
      · push_neg at hrest
        rw [closest_loop_no_update rest c _ _ hrest]
        exact ⟨s, List.mem_cons_self s rest, rfl⟩
    · simp only [closest_loop, if_neg hd]
      obtain ⟨t, ht, htd⟩ := h
      rcases List.mem_cons.mp ht with h1 | h1
      · exact absurd (h1 ▸ htd) hd
      · obtain ⟨u, hu, huu⟩ := ih best ch ⟨t, h1, htd⟩
        exact ⟨u, List.mem_cons_of_mem s hu, huu⟩

theorem closest_loop_first_argmin (ss : List Shade) (c : Color) (best : Nat)
    (ch : String) (h : ∃ s ∈ ss, shade_distance c s < best) :
    ∃ n, ∃ hn : n < ss.length,
      (closest_loop ss c best ch).1 = shade_distance c (ss.get ⟨n, hn⟩) ∧
      (closest_loop ss c best ch).2 = (ss.get ⟨n, hn⟩).symbol ∧
      (closest_loop ss c best ch).1 < best ∧
      ∀ j, (hj : j < ss.length) → j < n →
        (closest_loop ss c best ch).1 < shade_distance c (ss.get ⟨j, hj⟩) := by
  induction ss generalizing best ch with
  | nil => simp at h
  | cons s rest ih =>
    by_cases hd : shade_distance c s < best
    · simp only [closest_loop, if_pos hd]
      by_cases hrest : ∃ t ∈ rest, shade_distance c t < shade_distance c s
      · obtain ⟨n, hn, h1, h2, h3, h4⟩ := ih _ s.symbol hrest
        refine ⟨n + 1, by simpa using Nat.succ_lt_succ hn, ?_, ?_, ?_, ?_⟩
        · simpa using h1
        · simpa using h2
        · exact lt_trans h3 hd
        · intro j hj hjn
          match j with
          | 0 => simpa using h3
          | j + 1 =>
            have hj' : j < rest.length := by simpa using hj
            simpa using h4 j hj' (Nat.lt_of_succ_lt_succ hjn)
      · push_neg at hrest
        rw [closest_loop_no_update rest c _ _ hrest]
        exact ⟨0, by simp, by simp, by simp, hd, fun j hj hj0 => absurd hj0 (Nat.not_lt_zero j)⟩
    · simp only [closest_loop, if_neg hd]
      push_neg at hd
      obtain ⟨t, ht, htd⟩ := h
      rcases List.mem_cons.mp ht with h1 | h1
      · exact absurd (h1 ▸ htd) (not_lt.mpr hd)
      · obtain ⟨n, hn, hh1, hh2, hh3, hh4⟩ := ih best ch ⟨t, h1, htd⟩
        refine ⟨n + 1, by simpa using Nat.succ_lt_succ hn, ?_, ?_, hh3, ?_⟩
        · simpa using hh1
        · simpa using hh2
        · intro j hj hjn
          match j with
          | 0 => simpa using lt_of_lt_of_le hh3 hd
          | j + 1 =>
            have hj' : j < rest.length := by simpa using hj
            simpa using hh4 j hj' (Nat.lt_of_succ_lt_succ hjn)

theorem closest_loop_zero (ss : List Shade) (c : Color) (best : Nat)
    (ch : String) (hb : 0 < best) (h : ∃ s ∈ ss, shade_distance c s = 0) :
    ∃ s, ss.find? (fun t => shade_distance c t == 0) = some s ∧
      (closest_loop ss c best ch).2 = s.symbol := by
  induction ss generalizing best ch with
  | nil => simp at h
  | cons s rest ih =>
    by_cases hd : shade_distance c s = 0
    · have hlt : shade_distance c s < best := hd ▸ hb
      simp only [closest_loop, if_pos hlt]
      rw [closest_loop_no_update rest c _ _ (fun t _ => hd ▸ Nat.zero_le _)]
      exact ⟨s, by simp [List.find?, hd], rfl⟩
    · have hmem : ∃ t ∈ rest, shade_distance c t = 0 := by
        obtain ⟨t, ht, htd⟩ := h
        rcases List.mem_cons.mp ht with h1 | h1
        · exact absurd (h1 ▸ htd) hd
        · exact ⟨t, h1, htd⟩
      have hb0 : (shade_distance c s == 0) = false := by simpa using hd
      have hfind : (s :: rest).find? (fun t => shade_distance c t == 0) =
          rest.find? (fun t => shade_distance c t == 0) := by
        simp [List.find?, hb0]
      by_cases hlt : shade_distance c s < best
      · simp only [closest_loop, if_pos hlt]
        obtain ⟨t, ht1, ht2⟩ :=
          ih (shade_distance c s) s.symbol (Nat.pos_of_ne_zero hd) hmem
        exact ⟨t, hfind ▸ ht1, ht2⟩
      · simp only [closest_loop, if_neg hlt]
        obtain ⟨t, ht1, ht2⟩ := ih best ch hb hmem
        exact ⟨t, hfind ▸ ht1, ht2⟩

theorem skip_loop_eq (l : List α) (s i : Nat) :
    skip_loop l s i =
      ((List.enumFrom i l).filter (fun p => p.1 % s != 0)).map Prod.snd := by
  induction l generalizing i with
  | nil => rfl
  | cons a rest ih =>
    have he : List.enumFrom i (a :: rest) = (i, a) :: List.enumFrom (i + 1) rest := rfl
    rw [he, List.filter_cons]
    by_cases hb : i % s = 0
    · simp [skip_loop, hb, ih]
    · simp [skip_loop, hb, ih]

theorem skip_loop_sublist (l : List α) (s i : Nat) :
    (skip_loop l s i).Sublist l := by
  induction l generalizing i with
  | nil => simp [skip_loop]
  | cons a rest ih =>
    rw [skip_loop]
    split
    · exact List.Sublist.cons₂ a (ih (i + 1))
    · exact List.Sublist.cons a (ih (i + 1))

-- Claim theorems --------------------------------------------------------

/-- C1: the quantizer's distance is the sum over the three channels of the
saturating difference squared: a channel where the shade's value is at least
the pixel's contributes 0 rather than a squared negative difference.  In
particular, for pixel (0,0,0) against shade color (255,0,0) the whole
distance is 0, and with a two-shade black/red palette a black pixel maps to
the black glyph (it does not favor red) while a red pixel maps to red. -/
theorem saturating_distance_clamps :
    (∀ c : Color, ∀ s : Shade,
      shade_distance c s =
        clampedSq c.r s.color.r + clampedSq c.g s.color.g + clampedSq c.b s.color.b) ∧
    shade_distance { r := 0, g := 0, b := 0 }
      { symbol := "r", color := { r := 255, g := 0, b := 0 } } = 0 ∧
    color_to_character_with
      [ { symbol := "b", color := { r := 0, g := 0, b := 0 } },
        { symbol := "r", color := { r := 255, g := 0, b := 0 } } ]
      { r := 0, g := 0, b := 0 } = "b" ∧
    color_to_character_with
      [ { symbol := "b", color := { r := 0, g := 0, b := 0 } },
        { symbol := "r", color := { r := 255, g := 0, b := 0 } } ]
      { r := 255, g := 0, b := 0 } = "r" := by
  refine ⟨?_, by decide, by decide, by decide⟩
  intro c s
  have h : ∀ p q : Nat, (p - q) ^ 2 = clampedSq p q := by
    intro p q
    unfold clampedSq
    by_cases hpq : p ≤ q
    · simp [hpq, Nat.sub_eq_zero_of_le hpq]
    · simp [hpq]
  rw [shade_distance, h, h, h]

/-- C2: skip_frames with stride 0 is the identity; with a positive stride it
returns exactly the frames whose index i satisfies i % stride != 0, in the
original order, and the result is a sublist of the input (order preserved,
no duplication). -/
theorem skip_frames_spec {α : Type} (l : List α) (s : Nat) :
    skip_frames l 0 = l ∧
    (0 < s →
      skip_frames l s = (l.enum.filter (fun p => p.1 % s != 0)).map Prod.snd ∧
      (skip_frames l s).Sublist l) := by
  refine ⟨by simp [skip_frames], fun hs => ?_⟩
  have hne : s ≠ 0 := Nat.pos_iff_ne_zero.mp hs
  rw [skip_frames, if_neg hne]
  exact ⟨skip_loop_eq l s 0, skip_loop_sublist l s 0⟩

/-- C2 witness: stride 2 on the six frames [0,1,2,3,4,5] keeps exactly the
odd indices, giving [1,3,5]. -/
theorem skip_frames_spec_witness :
    0 < 2 ∧ skip_frames [0, 1, 2, 3, 4, 5] 2 = [1, 3, 5] := by
  refine ⟨by decide, ?_⟩
  rw [((skip_frames_spec [0, 1, 2, 3, 4, 5] 2).2 (by decide)).1]
  decide

-- The built-in palette always contains the white shade at distance 0 ------

theorem white_distance_zero (c : Color) (hc : c.valid) :
    shade_distance c { symbol := " ", color := { r := 255, g := 255, b := 255 } } = 0 := by
  obtain ⟨hr, hg, hb⟩ := hc
  simp [shade_distance, Nat.sub_eq_zero_of_le hr, Nat.sub_eq_zero_of_le hg,
    Nat.sub_eq_zero_of_le hb]

theorem shades_has_zero (c : Color) (hc : c.valid) :
    ∃ s ∈ shades, shade_distance c s = 0 :=
  ⟨{ symbol := " ", color := { r := 255, g := 255, b := 255 } }, by decide,
    white_distance_zero c hc⟩

theorem shades_has_near (c : Color) (hc : c.valid) :
    ∃ s ∈ shades, shade_distance c s < 195075 :=
  ⟨{ symbol := " ", color := { r := 255, g := 255, b := 255 } }, by decide,
    by rw [white_distance_zero c hc]; decide⟩

/-- C4: with the built-in palette, the glyph returned for any u8 color is
the symbol of a shade attaining the minimal saturating squared distance,
and every shade strictly earlier in palette order has strictly larger
distance: a later shade whose distance merely equals the current best never
replaces it, so the earliest minimizer wins all ties. -/
theorem color_to_character_tie_break (c : Color) (hc : c.valid) :
    ∃ n, ∃ hn : n < shades.length,
      color_to_character c = (shades.get ⟨n, hn⟩).symbol ∧
      (∀ k, (hk : k < shades.length) →
        shade_distance c (shades.get ⟨n, hn⟩) ≤ shade_distance c (shades.get ⟨k, hk⟩)) ∧
      (∀ j, (hj : j < shades.length) → j < n →
        shade_distance c (shades.get ⟨n, hn⟩) < shade_distance c (shades.get ⟨j, hj⟩)) := by
  obtain ⟨n, hn, h1, h2, h3, h4⟩ :=
    closest_loop_first_argmin shades c 195075 "" (shades_has_near c hc)
  refine ⟨n, hn, h2, ?_, ?_⟩
  · intro k hk
    rw [← h1]
    exact closest_loop_fst_le_mem shades c 195075 "" _ (List.get_mem shades k hk)
  · intro j hj hjn
    rw [← h1]
    exact h4 j hj hjn

/-- C4 witness: instantiated at the pure black pixel. -/
theorem color_to_character_tie_break_witness :
    (Color.valid { r := 0, g := 0, b := 0 }) ∧
    ∃ n, ∃ hn : n < shades.length,
      color_to_character { r := 0, g := 0, b := 0 } = (shades.get ⟨n, hn⟩).symbol ∧
      (∀ k, (hk : k < shades.length) →
        shade_distance { r := 0, g := 0, b := 0 } (shades.get ⟨n, hn⟩) ≤
          shade_distance { r := 0, g := 0, b := 0 } (shades.get ⟨k, hk⟩)) ∧
      (∀ j, (hj : j < shades.length) → j < n →
        shade_distance { r := 0, g := 0, b := 0 } (shades.get ⟨n, hn⟩) <
          shade_distance { r := 0, g := 0, b := 0 } (shades.get ⟨j, hj⟩)) :=
  ⟨by decide, color_to_character_tie_break { r := 0, g := 0, b := 0 } (by decide)⟩

/-- C5 counterexample: a non-empty one-shade palette whose single shade sits
at the maximal saturating distance 195075 from the white pixel.  Since the
loop only updates on a distance strictly below the initial sentinel 195075,
no update happens and the quantizer returns the empty string, which is not
the glyph of any shade of the palette. -/
theorem quantizer_totality_cex :
    color_to_character_with
      [ { symbol := "X", color := { r := 0, g := 0, b := 0 } } ]
      { r := 255, g := 255, b := 255 } = "" ∧
    (∀ s ∈ ([ { symbol := "X", color := { r := 0, g := 0, b := 0 } } ] : List Shade),
      s.symbol ≠ "") ∧
    ({ r := 255, g := 255, b := 255 } : Color).valid := by
  decide

/-- C5 amended: for every palette and color such that at least one shade
lies at saturating squared distance strictly below 195075 (the loop's
initial best), the quantizer returns the glyph of some shade of the
palette.  The built-in palette satisfies the premise for every u8 color,
since its last shade is white, at distance 0. -/
theorem quantizer_totality_amended (pal : List Shade) (c : Color)
    (h : ∃ s ∈ pal, shade_distance c s < 195075) :
    ∃ s ∈ pal, color_to_character_with pal c = s.symbol :=
  closest_loop_mem pal c 195075 "" h

/-- C5 witness: the built-in palette and the black pixel. -/
theorem quantizer_totality_amended_witness :
    (∃ s ∈ shades, shade_distance { r := 0, g := 0, b := 0 } s < 195075) ∧
    ∃ s ∈ shades, color_to_character_with shades { r := 0, g := 0, b := 0 } = s.symbol :=
  ⟨by decide, quantizer_totality_amended shades { r := 0, g := 0, b := 0 } (by decide)⟩

/-- Spec-side predicate for C10: the shade's reference color dominates the
pixel channel-wise. -/
def covers (c : Color) (s : Shade) : Bool :=
  decide (c.r ≤ s.color.r) && decide (c.g ≤ s.color.g) && decide (c.b ≤ s.color.b)

theorem dist_zero_iff_covers (c : Color) (s : Shade) :
    (shade_distance c s == 0) = covers c s := by
  rw [Bool.eq_iff_iff]
  simp [shade_distance, covers, Nat.sub_eq_zero_iff_le, Nat.add_eq_zero,
    pow_eq_zero_iff, and_assoc]

/-- C10: with the built-in palette, the quantizer returns exactly the glyph
of the first shade in palette order whose reference color dominates the
pixel channel-wise (such a shade exists for every u8 color because the last
shade is pure white), and in particular the returned glyph is never empty. -/
theorem color_to_character_first_cover (c : Color) (hc : c.valid) :
    (∃ s : Shade, shades.find? (covers c) = some s ∧
      color_to_character c = s.symbol) ∧
    color_to_character c ≠ "" := by
  obtain ⟨s, hfind, hres⟩ :=
    closest_loop_zero shades c 195075 "" (by decide) (shades_has_zero c hc)
  have hpred : (fun t => shade_distance c t == 0) = covers c :=
    funext (dist_zero_iff_covers c)
  have hfind' : shades.find? (covers c) = some s := by rw [← hpred]; exact hfind
  have hcc : color_to_character c = s.symbol := hres
  refine ⟨⟨s, hfind', hcc⟩, ?_⟩
  have hmem : s ∈ shades := List.mem_of_find?_eq_some hfind
  rw [hcc]
  simp only [shades, List.mem_cons, List.not_mem_nil, or_false] at hmem
  rcases hmem with rfl | rfl | rfl | rfl | rfl <;> decide

/-- C10 witness: instantiated at the pure black pixel. -/
theorem color_to_character_first_cover_witness :
    (Color.valid { r := 0, g := 0, b := 0 }) ∧
    ((∃ s : Shade, shades.find? (covers { r := 0, g := 0, b := 0 }) = some s ∧
      color_to_character { r := 0, g := 0, b := 0 } = s.symbol) ∧
    color_to_character { r := 0, g := 0, b := 0 } ≠ "") :=
  ⟨by decide, color_to_character_first_cover { r := 0, g := 0, b := 0 } (by decide)⟩

-- Frames and frame_to_text ----------------------------------------------

/-- A decoded frame, modelled as a total pixel grid: frame y x is the Color
read by frame.at_2d::<Vec3b>(y, x) (the BGR triple already repacked into
the Color struct, as the source does with pixel[0]/[1]/[2]).  Totality
models a grid with at least the accessed rows and columns, which is what
the .unwrap() in the source assumes. -/
def Frame : Type := Nat → Nat → Color

/-- One iteration of the outer `while y < size_y` loop of frame_to_text:
the row of glyphs produced by the inner `while x < size_x` loop. -/
def frame_row (frame : Frame) (y sizeX : Nat) : String :=
  String.join ((List.range sizeX).map (fun x => color_to_character (frame y x)))

/-- fn frame_to_text(frame: &Mat, size_x: i32, size_y: i32): the glyph rows
top-to-bottom, each terminated by the pushed newline. -/
def frame_to_text (frame : Frame) (sizeX sizeY : Nat) : String :=
  String.join ((List.range sizeY).map (fun y => frame_row frame y sizeX ++ "\n"))

theorem length_foldl_append (l : List String) (init : String) :
    (l.foldl (fun r s => r ++ s) init).length =
      init.length + (l.map String.length).sum := by
  induction l generalizing init with
  | nil => simp
  | cons a rest ih =>
    simp only [List.foldl_cons, List.map_cons, List.sum_cons, ih,
      String.length_append]
    omega

theorem length_join (l : List String) :
    (String.join l).length = (l.map String.length).sum := by
  rw [show String.join l = l.foldl (fun r s => r ++ s) "" from rfl,
    length_foldl_append]
  simp

theorem color_to_character_length (c : Color) (hc : c.valid) :
    (color_to_character c).length = 1 := by
  obtain ⟨s, hmem, hres⟩ :=
    closest_loop_mem shades c 195075 "" (shades_has_near c hc)
  have hcc : color_to_character c = s.symbol := hres
  rw [hcc]
  simp only [shades, List.mem_cons, List.not_mem_nil, or_false] at hmem
  rcases hmem with rfl | rfl | rfl | rfl | rfl <;> decide

theorem frame_row_length (frame : Frame) (y sizeX : Nat)
    (h : ∀ x, (frame y x).valid) :
    (frame_row frame y sizeX).length = sizeX := by
  unfold frame_row
  rw [length_join, List.map_map]
  have hrep : (List.range sizeX).map
      (String.length ∘ fun x => color_to_character (frame y x)) =
      List.replicate sizeX 1 := by
    rw [List.eq_replicate_iff]
    refine ⟨by simp, ?_⟩
    intro b hb
    simp only [List.mem_map, List.mem_range, Function.comp] at hb
    obtain ⟨x, _, rfl⟩ := hb
    exact color_to_character_length _ (h x)
  rw [hrep, List.sum_replicate]
  simp

/-- C3: for positive target sizes and a frame of u8 pixels, frame_to_text
produces exactly sizeY newline-terminated rows, each of exactly sizeX
glyphs, in row-major order (the rows list is indexed top-to-bottom and each
row is built left-to-right by the inner loop). -/
theorem frame_to_text_shape (frame : Frame) (sizeX sizeY : Nat)
    (_hx : 0 < sizeX) (_hy : 0 < sizeY) (hv : ∀ y x, (frame y x).valid) :
    ∃ rows : List String,
      frame_to_text frame sizeX sizeY = String.join (rows.map (fun r => r ++ "\n")) ∧
      rows.length = sizeY ∧
      ∀ r ∈ rows, r.length = sizeX := by
  refine ⟨(List.range sizeY).map (fun y => frame_row frame y sizeX), ?_, by simp, ?_⟩
  · unfold frame_to_text
    rw [List.map_map]
    rfl
  · intro r hr
    simp only [List.mem_map, List.mem_range] at hr
    obtain ⟨y, _, rfl⟩ := hr
    exact frame_row_length frame y sizeX (fun x => hv y x)

/-- C3 witness: a constant black 2-by-2 frame. -/
theorem frame_to_text_shape_witness :
    0 < 2 ∧
    (∀ y x : Nat,
      ((fun (_ _ : Nat) => ({ r := 0, g := 0, b := 0 } : Color)) y x).valid) ∧
    ∃ rows : List String,
      frame_to_text (fun _ _ => { r := 0, g := 0, b := 0 }) 2 2 =
        String.join (rows.map (fun r => r ++ "\n")) ∧
      rows.length = 2 ∧
      ∀ r ∈ rows, r.length = 2 :=
  ⟨by decide,
    fun _ _ => (by decide : ({ r := 0, g := 0, b := 0 } : Color).valid),
    frame_to_text_shape (fun _ _ => { r := 0, g := 0, b := 0 }) 2 2
      (by decide) (by decide)
      (fun _ _ => (by decide : ({ r := 0, g := 0, b := 0 } : Color).valid))⟩

-- Autosize policy (the args.autosize branch of main) ---------------------

/-- The autosize computation in main, over an optional detected terminal
size.  In the source, size_y is `(width as f64 / 4.0) as i32`; for a u16
width this f64 division by 4 is exact and the truncating cast of the
non-negative result is floor, i.e. Nat division by 4.  On None
(terminal_size() returned None) the caller-supplied argument sizes are kept. -/
def autosize (term : Option (Nat × Nat)) (argSizeX argSizeY : Nat) : Nat × Nat :=
  match term with
  | none => (argSizeX, argSizeY)
  | some (w, h) =>
    let sy := w / 4
    let sx := sy * 4
    if sy > h then (h * 4, h) else (sx, sy)

/-- C6: autosize computes size_y = floor(width/4) and size_x = 4*size_y,
falling back to size_y = height (and size_x = 4*height) when the first
size_y exceeds the height; terminal (80,24) gives (80,20), (200,10) gives
(40,10), and an undetected terminal keeps the explicit sizes unchanged. -/
theorem autosize_spec :
    (∀ x y : Nat, autosize none x y = (x, y)) ∧
    (∀ w h x y : Nat,
      autosize (some (w, h)) x y =
        if w / 4 > h then (h * 4, h) else ((w / 4) * 4, w / 4)) ∧
    autosize (some (80, 24)) 120 40 = (80, 20) ∧
    autosize (some (200, 10)) 120 40 = (40, 10) := by
  exact ⟨fun x y => rfl, fun w h x y => rfl, by decide, by decide⟩

-- Frame delay (the fps conversion in main) -------------------------------

/-- The frame delay computed in main: `(1.0 / args.fps * 1000.0) as u64`.
The f64 arithmetic is modelled exactly over the rationals; the `as u64`
cast truncates toward zero and saturates negative values at 0, which on
the rationals is Int.toNat of the floor for every input (for values in
(-1,0] both give 0; below that the cast saturates to 0 and toNat of the
negative floor is 0 as well). -/
def frame_delay (fps : ℚ) : Nat :=
  (⌊1 / fps * 1000⌋).toNat

/-- C9 counterexample: at fps = 60 the code's delay is 16 ms (truncation of
16.666...), while rounding 1000/60 to the nearest integer gives 17, so the
delay is not round(1000/fps). -/
theorem frame_delay_round_cex :
    frame_delay 60 = 16 ∧ round ((1000 : ℚ) / 60) = 17 := by
  constructor
  · norm_num [frame_delay]
    decide
  · norm_num [round_eq]

/-- C9 amended: for every positive fps the inter-frame delay is the
truncation (floor) of 1000/fps, not its rounding; e.g. fps = 60 gives
16 ms, and the default fps = 30 gives 33 ms. -/
theorem frame_delay_amended (fps : ℚ) (_h : 0 < fps) :
    frame_delay fps = (⌊1000 / fps⌋).toNat := by
  unfold frame_delay
  rw [one_div, inv_mul_eq_div]

/-- C9 witness: instantiated at fps = 60. -/
theorem frame_delay_amended_witness :
    (0 : ℚ) < 60 ∧ frame_delay 60 = (⌊(1000 : ℚ) / 60⌋).toNat :=
  ⟨by norm_num, frame_delay_amended 60 (by norm_num)⟩

-- Playback driver: print_frames ------------------------------------------

/-- The terminal operations attempted by print_frames, in order: the
initial execute!(Hide), then per frame the queue!(MoveTo(0,0), Print(..))
call and the flush() call, and finally execute!(Show).  The sleep between
frames cannot fail and is not an attempted terminal operation. -/
inductive TermOp where
  | hideCursor : TermOp
  | queueFrame : String → TermOp
  | flushOut : TermOp
  | showCursor : TermOp
deriving DecidableEq, BEq, Repr

/-- Where print_frames stopped: ran to completion, or the first failing
fallible call was the initial Hide, a queue/flush inside the loop, or the
final Show. -/
inductive PfOutcome where
  | ok : PfOutcome
  | failHide : PfOutcome
  | failLoop : PfOutcome
  | failShow : PfOutcome
deriving DecidableEq, Repr

/-- The `for frame_text in frames_text` loop of print_frames.  fail k says
whether the k-th fallible terminal call fails; k counts calls from the
start of print_frames.  Returns the attempted operations, the next call
index, and whether the loop ran to completion — on a failure the `?`
operator returns from the function at once, attempting nothing further. -/
def print_loop (frames : List String) (fail : Nat → Bool) (k : Nat) :
    List TermOp × Nat × Bool :=
  match frames with
  | [] => ([], k, true)
  | f :: rest =>
    if fail k then ([TermOp.queueFrame f], k + 1, false)
    else if fail (k + 1) then ([TermOp.queueFrame f, TermOp.flushOut], k + 2, false)
    else
      let r := print_loop rest fail (k + 2)
      (TermOp.queueFrame f :: TermOp.flushOut :: r.1, r.2.1, r.2.2)

/-- fn print_frames(frames_text: &[String], frame_delay: u64): Hide is the
first fallible call (index 0); on its failure, or on a failure inside the
loop, the `?` operator propagates the error immediately, so Show is
attempted exactly when the Hide call and the whole loop succeeded. -/
def print_frames (frames : List String) (fail : Nat → Bool) :
    List TermOp × PfOutcome :=
  if fail 0 then ([TermOp.hideCursor], PfOutcome.failHide)
  else
    let r := print_loop frames fail 1
    if r.2.2 then
      (TermOp.hideCursor :: r.1 ++ [TermOp.showCursor],
        if fail r.2.1 then PfOutcome.failShow else PfOutcome.ok)
    else (TermOp.hideCursor :: r.1, PfOutcome.failLoop)

/-- The number of Show attempts implied by each outcome: Show is reached
only when neither the Hide call nor any call inside the loop failed. -/
def expectedShowCount : PfOutcome → Nat
  | PfOutcome.ok => 1
  | PfOutcome.failHide => 0
  | PfOutcome.failLoop => 0
  | PfOutcome.failShow => 1

theorem beq_queue_hide (f : String) :
    (TermOp.queueFrame f == TermOp.hideCursor) = false := rfl

theorem beq_queue_show (f : String) :
    (TermOp.queueFrame f == TermOp.showCursor) = false := rfl

theorem beq_flush_hide : (TermOp.flushOut == TermOp.hideCursor) = false := rfl

theorem beq_flush_show : (TermOp.flushOut == TermOp.showCursor) = false := rfl

theorem beq_hide_hide : (TermOp.hideCursor == TermOp.hideCursor) = true := rfl

theorem beq_hide_show : (TermOp.hideCursor == TermOp.showCursor) = false := rfl

theorem beq_show_show : (TermOp.showCursor == TermOp.showCursor) = true := rfl

theorem beq_show_hide : (TermOp.showCursor == TermOp.hideCursor) = false := rfl

theorem print_loop_count_hide (frames : List String) (fail : Nat → Bool)
    (k : Nat) : (print_loop frames fail k).1.count TermOp.hideCursor = 0 := by
  induction frames generalizing k with
  | nil => simp [print_loop]
  | cons f rest ih =>
    rw [print_loop]
    split
    · simp [List.count_cons, beq_queue_hide]
    · split
      · simp [List.count_cons, beq_queue_hide, beq_flush_hide]
      · simp [List.count_cons, beq_queue_hide, beq_flush_hide, ih (k + 2)]

theorem print_loop_count_show (frames : List String) (fail : Nat → Bool)
    (k : Nat) : (print_loop frames fail k).1.count TermOp.showCursor = 0 := by
  induction frames generalizing k with
  | nil => simp [print_loop]
  | cons f rest ih =>
    rw [print_loop]
    split
    · simp [List.count_cons, beq_queue_show]
    · split
      · simp [List.count_cons, beq_queue_show, beq_flush_show]
      · simp [List.count_cons, beq_queue_show, beq_flush_show, ih (k + 2)]

/-- C8 counterexample: one frame, and the flush of that frame (call index
2) fails.  The Hide is attempted but the Show is never attempted: the trace
is [Hide, queue(MoveTo+Print), flush] with no Show, refuting the claim that
cursor restoration is attempted even when a write or flush inside the loop
fails. -/
theorem print_frames_cursor_cex :
    (print_frames ["a"] (fun k => k == 2)).1.count TermOp.showCursor = 0 ∧
    (print_frames ["a"] (fun k => k == 2)).1.count TermOp.hideCursor = 1 ∧
    (print_frames ["a"] (fun k => k == 2)).2 = PfOutcome.failLoop := by
  decide

/-- C8 amended: the cursor is hidden exactly once, as the first attempted
operation; the Show is attempted exactly once when the Hide call and every
queue/flush in the loop succeed (even if the Show call itself then fails),
and is not attempted at all when the Hide or any call inside the loop
fails. -/
theorem print_frames_cursor_amended (frames : List String) (fail : Nat → Bool) :
    (print_frames frames fail).1.count TermOp.hideCursor = 1 ∧
    (print_frames frames fail).1.head? = some TermOp.hideCursor ∧
    (print_frames frames fail).1.count TermOp.showCursor =
      expectedShowCount (print_frames frames fail).2 := by
  rw [print_frames]
  split
  · exact ⟨by decide, rfl, by decide⟩
  · simp only []
    split
    · refine ⟨?_, rfl, ?_⟩
      · simp [List.count_cons, List.count_append, beq_hide_hide, beq_show_hide,
          print_loop_count_hide frames fail 1]
      · have hs := print_loop_count_show frames fail 1
        split <;>
          simp [expectedShowCount, List.count_cons, List.count_append,
            beq_hide_show, beq_show_show, hs]
    · refine ⟨?_, rfl, ?_⟩
      · simp [List.count_cons, beq_hide_hide,
          print_loop_count_hide frames fail 1]
      · simp [expectedShowCount, List.count_cons, beq_hide_show,
          print_loop_count_show frames fail 1]

-- The error path of main ------------------------------------------------

/-- The externally observable events of main that the error-handling claims
are about: the println!("Error: {}", e) in the Err arm of the match on
get_video_frames, one event per frame converted to text by the conversion
loop, and one event per frame displayed by print_frames. -/
inductive MainEvent where
  | errorPrinted : String → MainEvent
  | frameConverted : String → MainEvent
  | frameDisplayed : String → MainEvent
deriving DecidableEq, Repr

/-- The pipeline of main after argument and size handling, as a function of
the result of get_video_frames.  On Ok the frames run through skip_frames
(the constant SKIP_EVERY), an abstract per-frame resize (the OpenCV call),
and frame_to_text; on Err the error is printed and execution falls through
to the same conversion and playback code with the frames vector still
empty, so no frame is converted or displayed.  main returns unit in both
cases, so the process exit status — the second component — is 0.  The model
assumes terminal and stdin calls succeed (their failure modes belong to
print_frames, modelled separately). -/
def main_model (source : Except String (List Frame)) (skipEvery : Nat)
    (resizeF : Frame → Frame) (sizeX sizeY : Nat) : List MainEvent × Nat :=
  let errEvents : List MainEvent :=
    match source with
    | Except.error e => [MainEvent.errorPrinted e]
    | Except.ok _ => []
  let frames : List Frame :=
    match source with
    | Except.error _ => []
    | Except.ok fs => (skip_frames fs skipEvery).map resizeF
  let texts : List String := frames.map (fun f => frame_to_text f sizeX sizeY)
  (errEvents ++ texts.map MainEvent.frameConverted ++
    texts.map MainEvent.frameDisplayed, 0)

/-- C7 counterexample: when get_video_frames fails, the program prints the
error but does not abort: the exit status is 0, not non-zero (the Err arm
only does println! and main then proceeds with the empty frames vector). -/
theorem source_error_exit_cex :
    main_model (Except.error "Failed to open video file") 0 (fun f => f) 2 2 =
      ([MainEvent.errorPrinted "Failed to open video file"], 0) := by
  rfl

/-- C7 amended: on a source error the error is reported to the user and no
frame is converted to text and no frame is displayed; the process however
does not exit with a non-zero status — it continues through the empty
pipeline and terminates normally with status 0. -/
theorem source_error_amended (e : String) (skipEvery : Nat)
    (resizeF : Frame → Frame) (sizeX sizeY : Nat) :
    (main_model (Except.error e) skipEvery resizeF sizeX sizeY).1 =
      [MainEvent.errorPrinted e] ∧
    (∀ t, MainEvent.frameConverted t ∉
      (main_model (Except.error e) skipEvery resizeF sizeX sizeY).1) ∧
    (∀ t, MainEvent.frameDisplayed t ∉
      (main_model (Except.error e) skipEvery resizeF sizeX sizeY).1) ∧
    (main_model (Except.error e) skipEvery resizeF sizeX sizeY).2 = 0 := by
  refine ⟨rfl, ?_, ?_, rfl⟩ <;> intro t <;> simp [main_model]
